import Mathlib

/-!
Verification of the restricted arithmetic-expression evaluator in
`src/calsi.py` (`SafeEval` and `ScientificCalculator.evaluate`).

The source parses an expression string with Python's `ast.parse(expr, mode='eval')`
and walks the resulting tree in `SafeEval._eval`, consulting a whitelist
`allowed_funcs` of math functions/constants and `allowed_ops` of operators.

This file embeds:
* the Python AST node shapes reachable from the calculator's inputs (`PyExpr`);
* a model of Python's tokenizer and expression parser for the token alphabet
  the calculator can produce (`tokenize`, `parseExpr`, `pyParse`);
* the evaluator `SafeEval._eval`, with numbers modelled as real numbers
  (floats idealised as reals), complex results of `**` modelled with `ℂ`,
  and the Python exceptions that can propagate modelled by `PyErr`.
-/

namespace Calsi

/-! ### Python AST node shapes

`ast.parse(expr, mode='eval')` over the calculator's input alphabet can produce
binary operations, unary operations, numeric constants (`ast.Num`), string
constants, calls, names, attribute access and comparisons.  `SafeEval._eval`
dispatches on these shapes (anything else hits the final `else` branch, which
the shapes below also cover: `str`, `attr` and `compare` all reach it).
-/

/-- Binary operator nodes producible from the characters `+ - * / ^` and the
`**` and `//` digraphs: `ast.Add`, `ast.Sub`, `ast.Mult`, `ast.Div`,
`ast.Pow`, `ast.FloorDiv`, `ast.BitXor`.  Only the first five are keys of
`allowed_ops`. -/
inductive PyBinOp
| add | sub | mult | div | pow | floorDiv | bitXor
deriving DecidableEq

/-- Unary operator nodes: `ast.USub` (in `allowed_ops`) and `ast.UAdd` (not). -/
inductive PyUnaryOp
| usub | uadd
deriving DecidableEq

/-- Python expression AST nodes reachable by the calculator.  Numeric
constants carry the exact rational value of the decimal literal. -/
inductive PyExpr
| num (n : ℚ)
| str (s : String)
| name (id : String)
| binOp (op : PyBinOp) (l r : PyExpr)
| unaryOp (op : PyUnaryOp) (e : PyExpr)
| call (f : PyExpr) (args : List PyExpr)
| attr (v : PyExpr) (field : String)
| compare (l : PyExpr) (rs : List PyExpr)

/-! ### Tokenizer

Model of Python's tokenizer restricted to the characters the calculator's
inputs use: digits, `.`, identifiers, `'`-quoted strings, and the operator
characters `+ - * / ( ) , < ^` with the digraphs `**` and `//`. -/

/-- Token kinds. -/
inductive Tok
| num (q : ℚ) | name (s : String) | str (s : String)
| plus | minus | star | slash | dstar | dslash | caret
| lt | dot | lparen | rparen | comma
deriving DecidableEq

/-- The apostrophe character, written via its code point. -/
def squote : Char := Char.ofNat 39

/-- Numeric value of a digit character. -/
def digitVal (c : Char) : ℕ := c.toNat - ('0').toNat

/-- Value of a digit string read as a natural number. -/
def digitsToNat (ds : List Char) : ℕ :=
  ds.foldl (fun acc c => 10 * acc + digitVal c) 0

/-- Value of the digit string after a decimal point. -/
def fracOf (ds : List Char) : ℚ :=
  ds.foldr (fun c acc => ((digitVal c : ℚ) + acc) / 10) 0

/-- Character class for identifier continuation (letters, digits, `_`). -/
def isIdentChar (c : Char) : Bool := c.isAlphanum || c == '_'

/-- Tokenizer worker; the fuel argument only bounds recursion depth (each
step consumes at least one character, so `length + 1` fuel suffices).
`none` models a tokenization `SyntaxError` (or exhausted fuel). -/
def tokenizeAux : ℕ → List Char → Option (List Tok)
| 0, _ => none
| _ + 1, [] => some []
| n + 1, c :: cs =>
  if c = ' ' then tokenizeAux n cs
  else if c.isDigit then
    let ds := (c :: cs).takeWhile Char.isDigit
    let rest := (c :: cs).dropWhile Char.isDigit
    match rest with
    | '.' :: rest2 =>
      let fs := rest2.takeWhile Char.isDigit
      let rest3 := rest2.dropWhile Char.isDigit
      do
        let ts ← tokenizeAux n rest3
        pure (Tok.num ((digitsToNat ds : ℚ) + fracOf fs) :: ts)
    | _ =>
      do
        let ts ← tokenizeAux n rest
        pure (Tok.num (digitsToNat ds : ℚ) :: ts)
  else if c = '.' then
    match cs with
    | d :: _ =>
      if d.isDigit then
        let fs := cs.takeWhile Char.isDigit
        let rest := cs.dropWhile Char.isDigit
        do
          let ts ← tokenizeAux n rest
          pure (Tok.num (fracOf fs) :: ts)
      else do
        let ts ← tokenizeAux n cs
        pure (Tok.dot :: ts)
    | [] => some [Tok.dot]
  else if c.isAlpha || c == '_' then
    let nm := (c :: cs).takeWhile isIdentChar
    let rest := (c :: cs).dropWhile isIdentChar
    do
      let ts ← tokenizeAux n rest
      pure (Tok.name (String.mk nm) :: ts)
  else if c = squote then
    let ss := cs.takeWhile (fun ch => ch ≠ squote)
    match cs.dropWhile (fun ch => ch ≠ squote) with
    | q :: rest =>
      if q = squote then do
        let ts ← tokenizeAux n rest
        pure (Tok.str (String.mk ss) :: ts)
      else none
    | [] => none
  else if c = '*' then
    match cs with
    | '*' :: rest => do
      let ts ← tokenizeAux n rest
      pure (Tok.dstar :: ts)
    | _ => do
      let ts ← tokenizeAux n cs
      pure (Tok.star :: ts)
  else if c = '/' then
    match cs with
    | '/' :: rest => do
      let ts ← tokenizeAux n rest
      pure (Tok.dslash :: ts)
    | _ => do
      let ts ← tokenizeAux n cs
      pure (Tok.slash :: ts)
  else if c = '+' then (tokenizeAux n cs).map (Tok.plus :: ·)
  else if c = '-' then (tokenizeAux n cs).map (Tok.minus :: ·)
  else if c = '(' then (tokenizeAux n cs).map (Tok.lparen :: ·)
  else if c = ')' then (tokenizeAux n cs).map (Tok.rparen :: ·)
  else if c = ',' then (tokenizeAux n cs).map (Tok.comma :: ·)
  else if c = '<' then (tokenizeAux n cs).map (Tok.lt :: ·)
  else if c = '^' then (tokenizeAux n cs).map (Tok.caret :: ·)
  else none

/-- Tokenize a source string. -/
def tokenize (s : String) : Option (List Tok) :=
  tokenizeAux (s.toList.length + 1) s.toList

/-! ### Parser

Recursive-descent model of Python's expression grammar restricted to the
constructs above, with Python's precedence: comparison < `^` (xor) <
`+ -` < `* / //` < unary `+ -` < `**` (right-associative; its left operand
is a primary, so unary minus on the left does *not* bind into the base) <
trailers (call, attribute) < atoms.  The fuel argument only bounds
recursion depth. -/

mutual

def parseExpr : ℕ → List Tok → Option (PyExpr × List Tok)
| 0, _ => none
| n + 1, ts => do
  let (l, ts1) ← parseXor n ts
  let (rs, ts2) ← parseCmpRest n [] ts1
  match rs with
  | [] => pure (l, ts2)
  | _ => pure (PyExpr.compare l rs, ts2)

def parseCmpRest : ℕ → List PyExpr → List Tok → Option (List PyExpr × List Tok)
| 0, _, _ => none
| n + 1, acc, Tok.lt :: ts => do
  let (r, ts1) ← parseXor n ts
  parseCmpRest n (acc ++ [r]) ts1
| _ + 1, acc, ts => some (acc, ts)

def parseXor : ℕ → List Tok → Option (PyExpr × List Tok)
| 0, _ => none
| n + 1, ts => do
  let (l, ts1) ← parseSum n ts
  parseXorRest n l ts1

def parseXorRest : ℕ → PyExpr → List Tok → Option (PyExpr × List Tok)
| 0, _, _ => none
| n + 1, l, Tok.caret :: ts => do
  let (r, ts1) ← parseSum n ts
  parseXorRest n (PyExpr.binOp PyBinOp.bitXor l r) ts1
| _ + 1, l, ts => some (l, ts)

def parseSum : ℕ → List Tok → Option (PyExpr × List Tok)
| 0, _ => none
| n + 1, ts => do
  let (l, ts1) ← parseTerm n ts
  parseSumRest n l ts1

def parseSumRest : ℕ → PyExpr → List Tok → Option (PyExpr × List Tok)
| 0, _, _ => none
| n + 1, l, Tok.plus :: ts => do
  let (r, ts1) ← parseTerm n ts
  parseSumRest n (PyExpr.binOp PyBinOp.add l r) ts1
| n + 1, l, Tok.minus :: ts => do
  let (r, ts1) ← parseTerm n ts
  parseSumRest n (PyExpr.binOp PyBinOp.sub l r) ts1
| _ + 1, l, ts => some (l, ts)

def parseTerm : ℕ → List Tok → Option (PyExpr × List Tok)
| 0, _ => none
| n + 1, ts => do
  let (l, ts1) ← parseFactor n ts
  parseTermRest n l ts1

def parseTermRest : ℕ → PyExpr → List Tok → Option (PyExpr × List Tok)
| 0, _, _ => none
| n + 1, l, Tok.star :: ts => do
  let (r, ts1) ← parseFactor n ts
  parseTermRest n (PyExpr.binOp PyBinOp.mult l r) ts1
| n + 1, l, Tok.slash :: ts => do
  let (r, ts1) ← parseFactor n ts
  parseTermRest n (PyExpr.binOp PyBinOp.div l r) ts1
| n + 1, l, Tok.dslash :: ts => do
  let (r, ts1) ← parseFactor n ts
  parseTermRest n (PyExpr.binOp PyBinOp.floorDiv l r) ts1
| _ + 1, l, ts => some (l, ts)

def parseFactor : ℕ → List Tok → Option (PyExpr × List Tok)
| 0, _ => none
| n + 1, Tok.minus :: ts => do
  let (e, ts1) ← parseFactor n ts
  pure (PyExpr.unaryOp PyUnaryOp.usub e, ts1)
| n + 1, Tok.plus :: ts => do
  let (e, ts1) ← parseFactor n ts
  pure (PyExpr.unaryOp PyUnaryOp.uadd e, ts1)
| n + 1, ts => parsePower n ts

def parsePower : ℕ → List Tok → Option (PyExpr × List Tok)
| 0, _ => none
| n + 1, ts => do
  let (p, ts1) ← parsePrimary n ts
  match ts1 with
  | Tok.dstar :: ts2 => do
    let (e, ts3) ← parseFactor n ts2
    pure (PyExpr.binOp PyBinOp.pow p e, ts3)
  | _ => pure (p, ts1)

def parsePrimary : ℕ → List Tok → Option (PyExpr × List Tok)
| 0, _ => none
| n + 1, ts => do
  let (a, ts1) ← parseAtom n ts
  parseTrailers n a ts1

def parseTrailers : ℕ → PyExpr → List Tok → Option (PyExpr × List Tok)
| 0, _, _ => none
| n + 1, a, Tok.dot :: ts =>
  match ts with
  | Tok.name s :: ts1 => parseTrailers n (PyExpr.attr a s) ts1
  | _ => none
| n + 1, a, Tok.lparen :: ts =>
  match ts with
  | Tok.rparen :: ts1 => parseTrailers n (PyExpr.call a []) ts1
  | _ => do
    let (args, ts1) ← parseArgsRest n [] ts
    parseTrailers n (PyExpr.call a args) ts1
| _ + 1, a, ts => some (a, ts)

def parseArgsRest : ℕ → List PyExpr → List Tok → Option (List PyExpr × List Tok)
| 0, _, _ => none
| n + 1, acc, ts => do
  let (e, ts1) ← parseExpr n ts
  match ts1 with
  | Tok.comma :: ts2 => parseArgsRest n (acc ++ [e]) ts2
  | Tok.rparen :: ts2 => some (acc ++ [e], ts2)
  | _ => none

def parseAtom : ℕ → List Tok → Option (PyExpr × List Tok)
| 0, _ => none
| _ + 1, Tok.num q :: ts => some (PyExpr.num q, ts)
| _ + 1, Tok.name s :: ts => some (PyExpr.name s, ts)
| _ + 1, Tok.str s :: ts => some (PyExpr.str s, ts)
| n + 1, Tok.lparen :: ts => do
  let (e, ts1) ← parseExpr n ts
  match ts1 with
  | Tok.rparen :: ts2 => some (e, ts2)
  | _ => none
| _, _ => none

end

/-- Run the parser on a token list; `mode='eval'` requires a single
expression consuming the whole input. -/
def runParse (ts : List Tok) : Option PyExpr :=
  match parseExpr (10 * (ts.length + 1)) ts with
  | some (e, []) => some e
  | _ => none

/-- Model of `ast.parse(s, mode='eval')`: `none` models a `SyntaxError`. -/
def pyParse (s : String) : Option PyExpr :=
  match tokenize s with
  | none => none
  | some ts => runParse ts

/-! ### Values, errors and the whitelist

`SafeEval._eval` produces Python values: floats (modelled as reals), the
function objects that a bare whitelisted name evaluates to, and the complex
numbers that `**` can produce on a negative base with fractional exponent.
Python exceptions that can escape `_eval` are modelled by `PyErr`. -/

/-- The six `math` functions stored in `allowed_funcs`. -/
inductive MathFn
| sin | cos | tan | log | sqrt | exp
deriving DecidableEq

/-- Python run-time values produced by the evaluator. -/
inductive PyVal
| num (x : ℝ)
| cnum (z : ℂ)
| func (f : MathFn)

/-- Python exceptions the evaluator can raise: the three explicit
`ValueError`s plus `ValueError("math domain error")` from `math`, and the
propagated `ZeroDivisionError`, `TypeError`, `KeyError` (missing
`allowed_ops` entry), `AttributeError` (`node.func.id` on a non-`Name`
callee) and `IndexError` (`args[0]` on an empty argument list). -/
inductive PyErr
| valueError (msg : String)
| zeroDivisionError
| typeError
| keyError
| attributeError
| indexError
deriving DecidableEq

/-- A value of the `allowed_funcs` dict: either one of the six `math`
functions or a float constant (`pi`, `e`). -/
inductive DictVal
| fn (f : MathFn)
| numConst (x : ℝ)

/-- The `allowed_funcs` whitelist of `SafeEval`, with `math.pi` and `math.e`
idealised as the exact constants. -/
noncomputable def allowed_funcs : String → Option DictVal
| "sin" => some (DictVal.fn MathFn.sin)
| "cos" => some (DictVal.fn MathFn.cos)
| "tan" => some (DictVal.fn MathFn.tan)
| "log" => some (DictVal.fn MathFn.log)
| "sqrt" => some (DictVal.fn MathFn.sqrt)
| "exp" => some (DictVal.fn MathFn.exp)
| "pi" => some (DictVal.numConst Real.pi)
| "e" => some (DictVal.numConst (Real.exp 1))
| _ => none

/-- `math.radians`: degrees to radians. -/
noncomputable def radians (x : ℝ) : ℝ := x * (Real.pi / 180)

/-- `operator.add` on run-time values; function objects do not support
arithmetic (`TypeError`). -/
noncomputable def pyAdd : PyVal → PyVal → Except PyErr PyVal
| PyVal.num a, PyVal.num b => Except.ok (PyVal.num (a + b))
| PyVal.num a, PyVal.cnum w => Except.ok (PyVal.cnum ((a : ℂ) + w))
| PyVal.cnum z, PyVal.num b => Except.ok (PyVal.cnum (z + (b : ℂ)))
| PyVal.cnum z, PyVal.cnum w => Except.ok (PyVal.cnum (z + w))
| _, _ => Except.error PyErr.typeError

/-- `operator.sub`. -/
noncomputable def pySub : PyVal → PyVal → Except PyErr PyVal
| PyVal.num a, PyVal.num b => Except.ok (PyVal.num (a - b))
| PyVal.num a, PyVal.cnum w => Except.ok (PyVal.cnum ((a : ℂ) - w))
| PyVal.cnum z, PyVal.num b => Except.ok (PyVal.cnum (z - (b : ℂ)))
| PyVal.cnum z, PyVal.cnum w => Except.ok (PyVal.cnum (z - w))
| _, _ => Except.error PyErr.typeError

/-- `operator.mul`. -/
noncomputable def pyMul : PyVal → PyVal → Except PyErr PyVal
| PyVal.num a, PyVal.num b => Except.ok (PyVal.num (a * b))
| PyVal.num a, PyVal.cnum w => Except.ok (PyVal.cnum ((a : ℂ) * w))
| PyVal.cnum z, PyVal.num b => Except.ok (PyVal.cnum (z * (b : ℂ)))
| PyVal.cnum z, PyVal.cnum w => Except.ok (PyVal.cnum (z * w))
| _, _ => Except.error PyErr.typeError

/-- `operator.truediv`: raises `ZeroDivisionError` on a zero divisor. -/
noncomputable def pyDiv : PyVal → PyVal → Except PyErr PyVal
| PyVal.num a, PyVal.num b =>
  if b = 0 then Except.error PyErr.zeroDivisionError
  else Except.ok (PyVal.num (a / b))
| PyVal.num a, PyVal.cnum w =>
  if w = 0 then Except.error PyErr.zeroDivisionError
  else Except.ok (PyVal.cnum ((a : ℂ) / w))
| PyVal.cnum z, PyVal.num b =>
  if b = 0 then Except.error PyErr.zeroDivisionError
  else Except.ok (PyVal.cnum (z / (b : ℂ)))
| PyVal.cnum z, PyVal.cnum w =>
  if w = 0 then Except.error PyErr.zeroDivisionError
  else Except.ok (PyVal.cnum (z / w))
| _, _ => Except.error PyErr.typeError

open Classical in
/-- `operator.pow` (`**`): on numbers, `0 ** negative` raises
`ZeroDivisionError`, a negative base with non-integral exponent yields a
complex number (Python 3 promotes to complex pow), otherwise real
exponentiation; with a complex operand it is complex pow, raising
`ZeroDivisionError` for zero base with negative-real-part or non-real
exponent. -/
noncomputable def pyPow : PyVal → PyVal → Except PyErr PyVal
| PyVal.num b, PyVal.num e =>
  if b < 0 then
    if ∃ n : ℤ, e = (n : ℝ) then Except.ok (PyVal.num (Real.rpow b e))
    else Except.ok (PyVal.cnum (Complex.cpow (b : ℂ) (e : ℂ)))
  else if b = 0 then
    if e < 0 then Except.error PyErr.zeroDivisionError
    else Except.ok (PyVal.num (Real.rpow b e))
  else Except.ok (PyVal.num (Real.rpow b e))
| PyVal.num b, PyVal.cnum w =>
  if b = 0 ∧ (w.re < 0 ∨ w.im ≠ 0) then Except.error PyErr.zeroDivisionError
  else Except.ok (PyVal.cnum (Complex.cpow (b : ℂ) w))
| PyVal.cnum z, PyVal.num e =>
  if z = 0 ∧ e < 0 then Except.error PyErr.zeroDivisionError
  else Except.ok (PyVal.cnum (Complex.cpow z (e : ℂ)))
| PyVal.cnum z, PyVal.cnum w =>
  if z = 0 ∧ (w.re < 0 ∨ w.im ≠ 0) then Except.error PyErr.zeroDivisionError
  else Except.ok (PyVal.cnum (Complex.cpow z w))
| _, _ => Except.error PyErr.typeError

/-- `operator.neg`. -/
noncomputable def pyNeg : PyVal → Except PyErr PyVal
| PyVal.num a => Except.ok (PyVal.num (-a))
| PyVal.cnum z => Except.ok (PyVal.cnum (-z))
| PyVal.func _ => Except.error PyErr.typeError

/-- The `allowed_ops` dict restricted to binary operator node types; node
types absent from the dict (`FloorDiv`, `BitXor`) give `none`, which the
evaluator turns into the `KeyError` Python raises on the dict subscript. -/
noncomputable def binFn : PyBinOp → Option (PyVal → PyVal → Except PyErr PyVal)
| PyBinOp.add => some pyAdd
| PyBinOp.sub => some pySub
| PyBinOp.mult => some pyMul
| PyBinOp.div => some pyDiv
| PyBinOp.pow => some pyPow
| PyBinOp.floorDiv => none
| PyBinOp.bitXor => none

/-- The `allowed_ops` dict restricted to unary operator node types
(`USub` is present, `UAdd` is not). -/
noncomputable def unFn : PyUnaryOp → Option (PyVal → Except PyErr PyVal)
| PyUnaryOp.usub => some pyNeg
| PyUnaryOp.uadd => none

/-- Applying one of the six `math` functions to an evaluated argument list
(`allowed_funcs[func_name](*args)`): all but `log` accept exactly one float
(`TypeError` otherwise); `math.log` also accepts an optional base and
computes `log(x)/log(base)`; `math.sqrt` and `math.log` raise
`ValueError("math domain error")` outside their domains, and `log` with
base `1` raises `ZeroDivisionError`. -/
noncomputable def callMath : MathFn → List PyVal → Except PyErr PyVal
| MathFn.sin, [PyVal.num x] => Except.ok (PyVal.num (Real.sin x))
| MathFn.cos, [PyVal.num x] => Except.ok (PyVal.num (Real.cos x))
| MathFn.tan, [PyVal.num x] => Except.ok (PyVal.num (Real.tan x))
| MathFn.exp, [PyVal.num x] => Except.ok (PyVal.num (Real.exp x))
| MathFn.sqrt, [PyVal.num x] =>
  if x < 0 then Except.error (PyErr.valueError ("math domain error"))
  else Except.ok (PyVal.num (Real.sqrt x))
| MathFn.log, [PyVal.num x] =>
  if x ≤ 0 then Except.error (PyErr.valueError ("math domain error"))
  else Except.ok (PyVal.num (Real.log x))
| MathFn.log, [PyVal.num x, PyVal.num b] =>
  if x ≤ 0 ∨ b ≤ 0 then Except.error (PyErr.valueError ("math domain error"))
  else if Real.log b = 0 then Except.error PyErr.zeroDivisionError
  else Except.ok (PyVal.num (Real.log x / Real.log b))
| _, _ => Except.error PyErr.typeError

/-- Calling a whitelist entry: constants (`pi`, `e`) are floats and are not
callable (`TypeError`), functions dispatch to `callMath`. -/
noncomputable def applyEntry : DictVal → List PyVal → Except PyErr PyVal
| DictVal.numConst _, _ => Except.error PyErr.typeError
| DictVal.fn f, args => callMath f args

/-- Is the function name one of the literal list `['sin', 'cos', 'tan']`
tested by the degree-mode branch? -/
def isTrigName (s : String) : Prop := s = "sin" ∨ s = "cos" ∨ s = "tan"

instance (s : String) : Decidable (isTrigName s) := by
  unfold isTrigName; infer_instance

mutual

/-- `SafeEval._eval`, translated case by case:
* `ast.BinOp` / `ast.UnaryOp`: look up the operator node type in
  `allowed_ops` (`KeyError` if absent — the subscript is evaluated before
  the operands), evaluate operand(s) left to right, apply;
* `ast.Num`: return the stored value;
* `ast.Call`: read `node.func.id` (`AttributeError` when the callee is not
  a `Name` node), reject names outside `allowed_funcs` with
  `ValueError("Invalid function")` before evaluating arguments, evaluate
  the arguments, convert `args[0]` from degrees when the name is a trig
  function and `use_degrees` is set (`IndexError` on an empty argument
  list, `TypeError` if `args[0]` is not a float), then call the entry;
* `ast.Name`: return the whitelist entry (`ValueError("Invalid variable")`
  if absent) — for `sin` … `exp` that is the function object itself;
* anything else (`ast.Str`, `ast.Attribute`, `ast.Compare`):
  `ValueError("Invalid expression")`. -/
noncomputable def SafeEval._eval (useDeg : Bool) : PyExpr → Except PyErr PyVal
| PyExpr.binOp op l r =>
  match binFn op with
  | none => Except.error PyErr.keyError
  | some f => do
    let a ← SafeEval._eval useDeg l
    let b ← SafeEval._eval useDeg r
    f a b
| PyExpr.unaryOp op e =>
  match unFn op with
  | none => Except.error PyErr.keyError
  | some f => do
    let a ← SafeEval._eval useDeg e
    f a
| PyExpr.num n => Except.ok (PyVal.num (n : ℝ))
| PyExpr.call fexpr args =>
  match fexpr with
  | PyExpr.name fname =>
    match allowed_funcs fname with
    | none => Except.error (PyErr.valueError ("Invalid function"))
    | some entry => do
      let vs ← SafeEval.evalArgs useDeg args
      if isTrigName fname ∧ useDeg = true then
        match vs with
        | [] => Except.error PyErr.indexError
        | v0 :: rest =>
          match v0 with
          | PyVal.num x => applyEntry entry (PyVal.num (radians x) :: rest)
          | _ => Except.error PyErr.typeError
      else applyEntry entry vs
  | _ => Except.error PyErr.attributeError
| PyExpr.name id =>
  match allowed_funcs id with
  | some (DictVal.fn f) => Except.ok (PyVal.func f)
  | some (DictVal.numConst x) => Except.ok (PyVal.num x)
  | none => Except.error (PyErr.valueError ("Invalid variable"))
| PyExpr.str _ => Except.error (PyErr.valueError ("Invalid expression"))
| PyExpr.attr _ _ => Except.error (PyErr.valueError ("Invalid expression"))
| PyExpr.compare _ _ => Except.error (PyErr.valueError ("Invalid expression"))

/-- The argument list comprehension `[self._eval(arg) for arg in node.args]`:
left to right, aborting at the first exception. -/
noncomputable def SafeEval.evalArgs (useDeg : Bool) : List PyExpr → Except PyErr (List PyVal)
| [] => Except.ok []
| a :: as => do
  let v ← SafeEval._eval useDeg a
  let vs ← SafeEval.evalArgs useDeg as
  pure (v :: vs)

end

/-- Bind on `Except` of a success, for rewriting evaluations. -/
theorem exceptBind_ok {ε α β : Type} (a : α) (f : α → Except ε β) :
    (Except.ok a >>= f : Except ε β) = f a := rfl

/-- Bind on `Except` of a failure, for rewriting evaluations. -/
theorem exceptBind_err {ε α β : Type} (e : ε) (f : α → Except ε β) :
    (Except.error e >>= f : Except ε β) = Except.error e := rfl

/-- Outcome of a whole evaluation: a `SyntaxError` from `ast.parse` or the
run-time outcome of `_eval`. -/
inductive EvalError
| parseError
| runtime (e : PyErr)
deriving DecidableEq

/-- `SafeEval.eval_expr`: parse then evaluate the tree body. -/
noncomputable def SafeEval.eval_expr (useDeg : Bool) (s : String) : Except EvalError PyVal :=
  match pyParse s with
  | none => Except.error EvalError.parseError
  | some t =>
    match SafeEval._eval useDeg t with
    | Except.error e => Except.error (EvalError.runtime e)
    | Except.ok v => Except.ok v

/-- The `self.expression.replace('^', '**')` step of
`ScientificCalculator.evaluate`. -/
def caretToDStar : List Char → List Char
| [] => []
| '^' :: cs => '*' :: '*' :: caretToDStar cs
| c :: cs => c :: caretToDStar cs

/-- String form of the caret replacement. -/
def pyReplaceCaret (s : String) : String := String.mk (caretToDStar s.toList)

/-- `ScientificCalculator.evaluate` up to the shell's display logic: replace
`^` by `**`, copy the shell's `use_degrees` into the evaluator, and run
`eval_expr`. -/
noncomputable def ScientificCalculator.evaluate (use_degrees : Bool) (s : String) :
    Except EvalError PyVal :=
  SafeEval.eval_expr use_degrees (pyReplaceCaret s)

/-! ### Referenced-name predicate (claim C1)

`UsesOutside t` holds when somewhere in `t` a `Name` node (including a call
target) carries an identifier outside the `allowed_funcs` whitelist. -/

/-- Some `Name` node of the expression carries an identifier that is not a
key of `allowed_funcs`. -/
inductive UsesOutside : PyExpr → Prop
| name (id : String) : allowed_funcs id = none → UsesOutside (PyExpr.name id)
| binL (op : PyBinOp) (l r : PyExpr) : UsesOutside l → UsesOutside (PyExpr.binOp op l r)
| binR (op : PyBinOp) (l r : PyExpr) : UsesOutside r → UsesOutside (PyExpr.binOp op l r)
| unary (op : PyUnaryOp) (e : PyExpr) : UsesOutside e → UsesOutside (PyExpr.unaryOp op e)
| callFn (f : PyExpr) (args : List PyExpr) : UsesOutside f → UsesOutside (PyExpr.call f args)
| callArg (f a : PyExpr) (args : List PyExpr) :
    a ∈ args → UsesOutside a → UsesOutside (PyExpr.call f args)
| attrV (v : PyExpr) (s : String) : UsesOutside v → UsesOutside (PyExpr.attr v s)
| cmpL (l : PyExpr) (rs : List PyExpr) : UsesOutside l → UsesOutside (PyExpr.compare l rs)
| cmpR (l r : PyExpr) (rs : List PyExpr) :
    r ∈ rs → UsesOutside r → UsesOutside (PyExpr.compare l rs)

/-! ### Reference arithmetic grammar (claim C2)

Expressions built from numeric literals, the five whitelisted operators and
unary minus, with their standard real-arithmetic value. -/

/-- Well-formed arithmetic expressions over the supported operator set. -/
inductive Arith
| num (q : ℚ)
| neg (a : Arith)
| add (a b : Arith)
| sub (a b : Arith)
| mul (a b : Arith)
| div (a b : Arith)
| pow (a b : Arith)

/-- Standard real value of an arithmetic expression (power as real
exponentiation). -/
noncomputable def aval : Arith → ℝ
| Arith.num q => (q : ℝ)
| Arith.neg a => -(aval a)
| Arith.add a b => aval a + aval b
| Arith.sub a b => aval a - aval b
| Arith.mul a b => aval a * aval b
| Arith.div a b => aval a / aval b
| Arith.pow a b => Real.rpow (aval a) (aval b)

/-- The Python AST of an arithmetic expression. -/
def toPy : Arith → PyExpr
| Arith.num q => PyExpr.num q
| Arith.neg a => PyExpr.unaryOp PyUnaryOp.usub (toPy a)
| Arith.add a b => PyExpr.binOp PyBinOp.add (toPy a) (toPy b)
| Arith.sub a b => PyExpr.binOp PyBinOp.sub (toPy a) (toPy b)
| Arith.mul a b => PyExpr.binOp PyBinOp.mult (toPy a) (toPy b)
| Arith.div a b => PyExpr.binOp PyBinOp.div (toPy a) (toPy b)
| Arith.pow a b => PyExpr.binOp PyBinOp.pow (toPy a) (toPy b)

/-- The standard value is defined everywhere in the expression: divisors are
non-zero and every power has a positive base, a zero base with non-negative
exponent, or a negative base with an integer exponent. -/
inductive ADefined : Arith → Prop
| num (q : ℚ) : ADefined (Arith.num q)
| neg (a : Arith) : ADefined a → ADefined (Arith.neg a)
| add (a b : Arith) : ADefined a → ADefined b → ADefined (Arith.add a b)
| sub (a b : Arith) : ADefined a → ADefined b → ADefined (Arith.sub a b)
| mul (a b : Arith) : ADefined a → ADefined b → ADefined (Arith.mul a b)
| div (a b : Arith) : ADefined a → ADefined b → aval b ≠ 0 → ADefined (Arith.div a b)
| powPos (a b : Arith) : ADefined a → ADefined b → 0 < aval a → ADefined (Arith.pow a b)
| powZero (a b : Arith) : ADefined a → ADefined b → aval a = 0 → 0 ≤ aval b →
    ADefined (Arith.pow a b)
| powInt (a b : Arith) (n : ℤ) : ADefined a → ADefined b → aval a < 0 →
    aval b = (n : ℝ) → ADefined (Arith.pow a b)

/-! ### Trig-free predicate (claim C3) -/

/-- The expression contains no call to one of `sin`, `cos`, `tan` — the only
construct whose evaluation consults `use_degrees`. -/
inductive TrigFree : PyExpr → Prop
| num (n : ℚ) : TrigFree (PyExpr.num n)
| str (s : String) : TrigFree (PyExpr.str s)
| name (id : String) : TrigFree (PyExpr.name id)
| binOp (op : PyBinOp) (l r : PyExpr) :
    TrigFree l → TrigFree r → TrigFree (PyExpr.binOp op l r)
| unaryOp (op : PyUnaryOp) (e : PyExpr) : TrigFree e → TrigFree (PyExpr.unaryOp op e)
| callName (fname : String) (args : List PyExpr) :
    ¬ isTrigName fname → (∀ a ∈ args, TrigFree a) →
    TrigFree (PyExpr.call (PyExpr.name fname) args)
| callNotName (f : PyExpr) (args : List PyExpr) :
    (∀ id, f ≠ PyExpr.name id) → TrigFree (PyExpr.call f args)
| attrNode (v : PyExpr) (s : String) : TrigFree (PyExpr.attr v s)
| compareNode (l : PyExpr) (rs : List PyExpr) : TrigFree (PyExpr.compare l rs)

/-! ### Flag-read instrumentation (claim C9)

`SafeEval._eval` reads `self.use_degrees` (the *evaluator's* attribute) at
each trigonometric `Call` node — line 37 of the source.  `evalTrace` is
`_eval` with those reads made explicit: `flagAt k` is the value the
evaluator's attribute would show at its `k`-th read during the call.  The
shell's toggle writes `ScientificCalculator.use_degrees`; the only
assignment to `SafeEval.use_degrees` in the whole program is the copy-in
`self.safe_eval.use_degrees = self.use_degrees` at the start of
`ScientificCalculator.evaluate` (line 93), so during one call every read
sees the constant snapshot taken there. -/

mutual

/-- `_eval` with explicit reads of the evaluator's `use_degrees` attribute;
the second component threads the read count. -/
noncomputable def SafeEval.evalTrace (flagAt : ℕ → Bool) : PyExpr → ℕ → (Except PyErr PyVal) × ℕ
| PyExpr.binOp op l r, k =>
  match binFn op with
  | none => (Except.error PyErr.keyError, k)
  | some f =>
    match SafeEval.evalTrace flagAt l k with
    | (Except.error e, k1) => (Except.error e, k1)
    | (Except.ok a, k1) =>
      match SafeEval.evalTrace flagAt r k1 with
      | (Except.error e, k2) => (Except.error e, k2)
      | (Except.ok b, k2) => (f a b, k2)
| PyExpr.unaryOp op e, k =>
  match unFn op with
  | none => (Except.error PyErr.keyError, k)
  | some f =>
    match SafeEval.evalTrace flagAt e k with
    | (Except.error e1, k1) => (Except.error e1, k1)
    | (Except.ok a, k1) => (f a, k1)
| PyExpr.num n, k => (Except.ok (PyVal.num (n : ℝ)), k)
| PyExpr.call fexpr args, k =>
  match fexpr with
  | PyExpr.name fname =>
    match allowed_funcs fname with
    | none => (Except.error (PyErr.valueError ("Invalid function")), k)
    | some entry =>
      match SafeEval.evalArgsTrace flagAt args k with
      | (Except.error e, k1) => (Except.error e, k1)
      | (Except.ok vs, k1) =>
        if isTrigName fname then
          if flagAt k1 = true then
            match vs with
            | [] => (Except.error PyErr.indexError, k1 + 1)
            | v0 :: rest =>
              match v0 with
              | PyVal.num x => (applyEntry entry (PyVal.num (radians x) :: rest), k1 + 1)
              | _ => (Except.error PyErr.typeError, k1 + 1)
          else (applyEntry entry vs, k1 + 1)
        else (applyEntry entry vs, k1)
  | _ => (Except.error PyErr.attributeError, k)
| PyExpr.name id, k =>
  (match allowed_funcs id with
   | some (DictVal.fn f) => Except.ok (PyVal.func f)
   | some (DictVal.numConst x) => Except.ok (PyVal.num x)
   | none => Except.error (PyErr.valueError ("Invalid variable")), k)
| PyExpr.str _, k => (Except.error (PyErr.valueError ("Invalid expression")), k)
| PyExpr.attr _ _, k => (Except.error (PyErr.valueError ("Invalid expression")), k)
| PyExpr.compare _ _, k => (Except.error (PyErr.valueError ("Invalid expression")), k)

/-- Argument-list evaluation with the read counter threaded through. -/
noncomputable def SafeEval.evalArgsTrace (flagAt : ℕ → Bool) : List PyExpr → ℕ → (Except PyErr (List PyVal)) × ℕ
| [], k => (Except.ok [], k)
| a :: as, k =>
  match SafeEval.evalTrace flagAt a k with
  | (Except.error e, k1) => (Except.error e, k1)
  | (Except.ok v, k1) =>
    match SafeEval.evalArgsTrace flagAt as k1 with
    | (Except.error e, k2) => (Except.error e, k2)
    | (Except.ok vs, k2) => (Except.ok (v :: vs), k2)

end

/-- `ScientificCalculator.evaluate` with the shared state made explicit:
`shellFlag k` is the value of the shell's `use_degrees` at its `k`-th read
during the call.  Line 93 (`self.safe_eval.use_degrees = self.use_degrees`)
performs the single read, at index `0`; the evaluator's own attribute then
holds that snapshot unchanged for the whole call (the shell's toggle writes
only `ScientificCalculator.use_degrees`), so every per-node read in
`evalTrace` sees the constant snapshot. -/
noncomputable def ScientificCalculator.evaluateShell (shellFlag : ℕ → Bool) (s : String) :
    Except EvalError PyVal :=
  let snap := shellFlag 0
  match pyParse (pyReplaceCaret s) with
  | none => Except.error EvalError.parseError
  | some t =>
    match (SafeEval.evalTrace (fun _ => snap) t 0).1 with
    | Except.error e => Except.error (EvalError.runtime e)
    | Except.ok v => Except.ok v

/-! ### Concrete attack strings (claim C1) -/

/-- The source string of the injection attempt `__import__(` `os` `)` with
the argument in single quotes. -/
def importOsStr : String := String.mk
  ['_','_','i','m','p','o','r','t','_','_','(', Char.ofNat 39, 'o','s', Char.ofNat 39, ')']

/-- The source string of the injection attempt `os.system(` `x` `)` with the
argument in single quotes. -/
def osSystemStr : String := String.mk
  ['o','s','.','s','y','s','t','e','m','(', Char.ofNat 39, 'x', Char.ofNat 39, ')']


theorem evalArgs_error (d : Bool) {args : List PyExpr} {a : PyExpr} (ha : a ∈ args)
    (he : ∃ e, SafeEval._eval d a = Except.error e) :
    ∃ e, SafeEval.evalArgs d args = Except.error e := by
  induction args with
  | nil => cases ha
  | cons b bs ih =>
    cases hb : SafeEval._eval d b with
    | error e => exact ⟨e, by simp [SafeEval.evalArgs, hb, exceptBind_err]⟩
    | ok v =>
      rcases List.mem_cons.mp ha with rfl | hmem
      · rcases he with ⟨e, he⟩
        rw [hb] at he
        cases he
      · rcases ih hmem with ⟨e, hes⟩
        exact ⟨e, by simp [SafeEval.evalArgs, hb, hes, exceptBind_ok, exceptBind_err]⟩

theorem usesOutside_eval_error (d : Bool) :
    ∀ {t : PyExpr}, UsesOutside t → ∃ e, SafeEval._eval d t = Except.error e := by
  intro t h
  induction h with
  | name id hid => exact ⟨PyErr.valueError ("Invalid variable"), by simp [SafeEval._eval, hid]⟩
  | binL op l r hl ih =>
    rcases ih with ⟨e, he⟩
    cases hop : binFn op with
    | none => exact ⟨PyErr.keyError, by simp [SafeEval._eval, hop]⟩
    | some f => exact ⟨e, by simp [SafeEval._eval, hop, he, exceptBind_err]⟩
  | binR op l r hr ih =>
    rcases ih with ⟨e, he⟩
    cases hop : binFn op with
    | none => exact ⟨PyErr.keyError, by simp [SafeEval._eval, hop]⟩
    | some f =>
      cases hl : SafeEval._eval d l with
      | error e1 => exact ⟨e1, by simp [SafeEval._eval, hop, hl, exceptBind_err]⟩
      | ok a => exact ⟨e, by simp [SafeEval._eval, hop, hl, he, exceptBind_ok, exceptBind_err]⟩
  | unary op e hu ih =>
    rcases ih with ⟨e1, he⟩
    cases hop : unFn op with
    | none => exact ⟨PyErr.keyError, by simp [SafeEval._eval, hop]⟩
    | some f => exact ⟨e1, by simp [SafeEval._eval, hop, he, exceptBind_err]⟩
  | callFn f args hf ih =>
    cases f with
    | name id =>
      cases hid : allowed_funcs id with
      | none => exact ⟨PyErr.valueError ("Invalid function"), by simp [SafeEval._eval, hid]⟩
      | some v =>
        rcases ih with ⟨e, he⟩
        cases v with
        | fn g => simp [SafeEval._eval, hid] at he
        | numConst x => simp [SafeEval._eval, hid] at he
    | num n => exact ⟨PyErr.attributeError, by simp [SafeEval._eval]⟩
    | str s => exact ⟨PyErr.attributeError, by simp [SafeEval._eval]⟩
    | binOp op l r => exact ⟨PyErr.attributeError, by simp [SafeEval._eval]⟩
    | unaryOp op e => exact ⟨PyErr.attributeError, by simp [SafeEval._eval]⟩
    | call g as => exact ⟨PyErr.attributeError, by simp [SafeEval._eval]⟩
    | attr v s => exact ⟨PyErr.attributeError, by simp [SafeEval._eval]⟩
    | compare l rs => exact ⟨PyErr.attributeError, by simp [SafeEval._eval]⟩
  | callArg f a args hmem ha ih =>
    cases f with
    | name id =>
      cases hid : allowed_funcs id with
      | none => exact ⟨PyErr.valueError ("Invalid function"), by simp [SafeEval._eval, hid]⟩
      | some entry =>
        rcases evalArgs_error d hmem ih with ⟨e, hes⟩
        exact ⟨e, by simp [SafeEval._eval, hid, hes, exceptBind_err]⟩
    | num n => exact ⟨PyErr.attributeError, by simp [SafeEval._eval]⟩
    | str s => exact ⟨PyErr.attributeError, by simp [SafeEval._eval]⟩
    | binOp op l r => exact ⟨PyErr.attributeError, by simp [SafeEval._eval]⟩
    | unaryOp op e => exact ⟨PyErr.attributeError, by simp [SafeEval._eval]⟩
    | call g as => exact ⟨PyErr.attributeError, by simp [SafeEval._eval]⟩
    | attr v s => exact ⟨PyErr.attributeError, by simp [SafeEval._eval]⟩
    | compare l rs => exact ⟨PyErr.attributeError, by simp [SafeEval._eval]⟩
  | attrV v s hv ih => exact ⟨PyErr.valueError ("Invalid expression"), by simp [SafeEval._eval]⟩
  | cmpL l rs hl ih => exact ⟨PyErr.valueError ("Invalid expression"), by simp [SafeEval._eval]⟩
  | cmpR l r rs hmem hr ih => exact ⟨PyErr.valueError ("Invalid expression"), by simp [SafeEval._eval]⟩


theorem adefined_eval (d : Bool) :
    ∀ {t : Arith}, ADefined t → SafeEval._eval d (toPy t) = Except.ok (PyVal.num (aval t)) := by
  intro t h
  induction h with
  | num q => simp [toPy, SafeEval._eval, aval]
  | neg a ha ih =>
    simp [toPy, SafeEval._eval, aval, unFn, pyNeg, ih, exceptBind_ok]
  | add a b ha hb iha ihb =>
    simp [toPy, SafeEval._eval, aval, binFn, pyAdd, iha, ihb, exceptBind_ok]
  | sub a b ha hb iha ihb =>
    simp [toPy, SafeEval._eval, aval, binFn, pySub, iha, ihb, exceptBind_ok]
  | mul a b ha hb iha ihb =>
    simp [toPy, SafeEval._eval, aval, binFn, pyMul, iha, ihb, exceptBind_ok]
  | div a b ha hb hnz iha ihb =>
    simp [toPy, SafeEval._eval, aval, binFn, pyDiv, iha, ihb, exceptBind_ok, hnz]
  | powPos a b ha hb hpos iha ihb =>
    have h1 : ¬ (aval a < 0) := not_lt.mpr hpos.le
    have h2 : ¬ (aval a = 0) := ne_of_gt hpos
    simp [toPy, SafeEval._eval, aval, binFn, pyPow, iha, ihb, exceptBind_ok, h1, h2]
  | powZero a b ha hb h0 hb0 iha ihb =>
    have h1 : ¬ (aval a < 0) := by rw [h0]; exact lt_irrefl 0
    have h2 : ¬ (aval b < 0) := not_lt.mpr hb0
    simp [toPy, SafeEval._eval, aval, binFn, pyPow, iha, ihb, exceptBind_ok, h0, h1, h2]
  | powInt a b n ha hb hneg hint iha ihb =>
    have hex : ∃ m : ℤ, aval b = (m : ℝ) := ⟨n, hint⟩
    simp [toPy, SafeEval._eval, aval, binFn, pyPow, iha, ihb, exceptBind_ok, hneg, hex]

theorem evalArgs_congr {args : List PyExpr}
    (h : ∀ a ∈ args, ∀ d₁ d₂ : Bool, SafeEval._eval d₁ a = SafeEval._eval d₂ a)
    (d₁ d₂ : Bool) : SafeEval.evalArgs d₁ args = SafeEval.evalArgs d₂ args := by
  induction args with
  | nil => rfl
  | cons b bs ih =>
    simp only [SafeEval.evalArgs]
    rw [h b (List.mem_cons_self b bs) d₁ d₂,
      ih (fun a ha => h a (List.mem_cons_of_mem b ha))]

theorem trigFree_eval_mode {t : PyExpr} (h : TrigFree t) :
    ∀ d₁ d₂ : Bool, SafeEval._eval d₁ t = SafeEval._eval d₂ t := by
  induction h with
  | num n => intro _ _; rfl
  | str s => intro _ _; rfl
  | name id => intro _ _; rfl
  | binOp op l r hl hr ihl ihr =>
    intro d₁ d₂
    cases hop : binFn op with
    | none => simp [SafeEval._eval, hop]
    | some f => simp only [SafeEval._eval, hop, ihl d₁ d₂, ihr d₁ d₂]
  | unaryOp op e he ihe =>
    intro d₁ d₂
    cases hop : unFn op with
    | none => simp [SafeEval._eval, hop]
    | some f => simp only [SafeEval._eval, hop, ihe d₁ d₂]
  | callName fname args hnt hall ih =>
    intro d₁ d₂
    cases hfn : allowed_funcs fname with
    | none => simp [SafeEval._eval, hfn]
    | some entry =>
      have hargs := evalArgs_congr (fun a ha => ih a ha) d₁ d₂
      simp only [SafeEval._eval, hfn, hargs, hnt, false_and, if_neg, if_false]
  | callNotName f args hnn =>
    intro d₁ d₂
    cases f with
    | name id => exact absurd rfl (hnn id)
    | num n => rfl
    | str s => rfl
    | binOp op l r => rfl
    | unaryOp op e => rfl
    | call g as => rfl
    | attr v s => rfl
    | compare l rs => rfl
  | attrNode v s => intro _ _; rfl
  | compareNode l rs => intro _ _; rfl


mutual

theorem evalTrace_const_eq (b : Bool) : ∀ (t : PyExpr) (k : ℕ),
    (SafeEval.evalTrace (fun _ => b) t k).1 = SafeEval._eval b t
| PyExpr.binOp op l r, k => by
  cases hop : binFn op with
  | none => simp [SafeEval.evalTrace, SafeEval._eval, hop]
  | some f =>
    have ihl := evalTrace_const_eq b l k
    rcases hl : SafeEval.evalTrace (fun _ => b) l k with ⟨res1, k1⟩
    rw [hl] at ihl
    cases res1 with
    | error e =>
      simp only at ihl
      simp [SafeEval.evalTrace, SafeEval._eval, hop, hl, ← ihl, exceptBind_err]
    | ok a =>
      simp only at ihl
      have ihr := evalTrace_const_eq b r k1
      rcases hr : SafeEval.evalTrace (fun _ => b) r k1 with ⟨res2, k2⟩
      rw [hr] at ihr
      cases res2 with
      | error e =>
        simp only at ihr
        simp [SafeEval.evalTrace, SafeEval._eval, hop, hl, hr, ← ihl, ← ihr,
          exceptBind_ok, exceptBind_err]
      | ok v =>
        simp only at ihr
        simp [SafeEval.evalTrace, SafeEval._eval, hop, hl, hr, ← ihl, ← ihr, exceptBind_ok]
| PyExpr.unaryOp op e, k => by
  cases hop : unFn op with
  | none => simp [SafeEval.evalTrace, SafeEval._eval, hop]
  | some f =>
    have ihe := evalTrace_const_eq b e k
    rcases he : SafeEval.evalTrace (fun _ => b) e k with ⟨res1, k1⟩
    rw [he] at ihe
    cases res1 with
    | error e1 =>
      simp only at ihe
      simp [SafeEval.evalTrace, SafeEval._eval, hop, he, ← ihe, exceptBind_err]
    | ok a =>
      simp only at ihe
      simp [SafeEval.evalTrace, SafeEval._eval, hop, he, ← ihe, exceptBind_ok]
| PyExpr.num n, k => rfl
| PyExpr.call fexpr args, k => by
  cases fexpr with
  | name fname =>
    cases hfn : allowed_funcs fname with
    | none => simp [SafeEval.evalTrace, SafeEval._eval, hfn]
    | some entry =>
      have iha := evalArgsTrace_const_eq b args k
      rcases hargs : SafeEval.evalArgsTrace (fun _ => b) args k with ⟨resa, k1⟩
      rw [hargs] at iha
      cases resa with
      | error e =>
        simp only at iha
        simp [SafeEval.evalTrace, SafeEval._eval, hfn, hargs, ← iha, exceptBind_err]
      | ok vs =>
        simp only at iha
        by_cases htr : isTrigName fname
        · cases b with
          | false =>
            simp [SafeEval.evalTrace, SafeEval._eval, hfn, hargs, ← iha,
              exceptBind_ok, htr]
          | true =>
            simp [SafeEval.evalTrace, SafeEval._eval, hfn, hargs, ← iha,
              exceptBind_ok, htr]
            cases vs with
            | nil => rfl
            | cons v0 rest => cases v0 <;> rfl
        · simp [SafeEval.evalTrace, SafeEval._eval, hfn, hargs, ← iha,
            exceptBind_ok, htr]
  | num n => rfl
  | str s => rfl
  | binOp op l r => rfl
  | unaryOp op e => rfl
  | call g as => rfl
  | attr v s => rfl
  | compare l rs => rfl
| PyExpr.name id, k => rfl
| PyExpr.str s, k => rfl
| PyExpr.attr v s, k => rfl
| PyExpr.compare l rs, k => rfl

theorem evalArgsTrace_const_eq (b : Bool) : ∀ (as : List PyExpr) (k : ℕ),
    (SafeEval.evalArgsTrace (fun _ => b) as k).1 = SafeEval.evalArgs b as
| [], k => rfl
| a :: as, k => by
  have iha := evalTrace_const_eq b a k
  rcases ha : SafeEval.evalTrace (fun _ => b) a k with ⟨res1, k1⟩
  rw [ha] at iha
  cases res1 with
  | error e =>
    simp only at iha
    simp [SafeEval.evalArgsTrace, SafeEval.evalArgs, ha, ← iha, exceptBind_err]
  | ok v =>
    simp only at iha
    have ihas := evalArgsTrace_const_eq b as k1
    rcases has : SafeEval.evalArgsTrace (fun _ => b) as k1 with ⟨res2, k2⟩
    rw [has] at ihas
    cases res2 with
    | error e =>
      simp only at ihas
      simp [SafeEval.evalArgsTrace, SafeEval.evalArgs, ha, has, ← iha, ← ihas,
        exceptBind_ok, exceptBind_err]
    | ok vs =>
      simp only at ihas
      simp [SafeEval.evalArgsTrace, SafeEval.evalArgs, ha, has, ← iha, ← ihas, exceptBind_ok]

end


/-- Name under which a whitelisted math function is stored in
`allowed_funcs`. -/
def mathFnName : MathFn → String
| MathFn.sin => "sin"
| MathFn.cos => "cos"
| MathFn.tan => "tan"
| MathFn.log => "log"
| MathFn.sqrt => "sqrt"
| MathFn.exp => "exp"

/-! ### Claims -/

/-- C1 (amended): every expression containing an identifier outside the
whitelist `{sin, cos, tan, log, sqrt, exp, pi, e}` fails to evaluate — no
number is returned and no unintended name is dereferenced —
`evaluate("__import__('os')")` failing with the `Invalid function`
`ValueError` (the spec's `UnknownFunctionError`); but
`evaluate("os.system('x')")` fails with an `AttributeError` raised by
`node.func.id` on the non-`Name` callee, not with one of
`UnknownIdentifierError`/`UnknownFunctionError`/`SyntaxError` as the claim
states. -/
theorem whitelist_enforcement :
    (∀ (d : Bool) (t : PyExpr), UsesOutside t → ∃ e, SafeEval._eval d t = Except.error e)
    ∧ (∀ d : Bool, ScientificCalculator.evaluate d importOsStr =
        Except.error (EvalError.runtime (PyErr.valueError ("Invalid function"))))
    ∧ (∀ d : Bool, ScientificCalculator.evaluate d osSystemStr =
        Except.error (EvalError.runtime PyErr.attributeError)) := by
  refine ⟨fun d t h => usesOutside_eval_error d h, fun d => ?_, fun d => ?_⟩
  · have hp : pyParse (pyReplaceCaret importOsStr) =
        some (PyExpr.call (PyExpr.name ("__import__")) [PyExpr.str ("os")]) := rfl
    have ha : allowed_funcs ("__import__") = none := rfl
    unfold ScientificCalculator.evaluate SafeEval.eval_expr
    rw [hp]
    norm_num [SafeEval._eval, ha]
  · have hp : pyParse (pyReplaceCaret osSystemStr) =
        some (PyExpr.call (PyExpr.attr (PyExpr.name ("os")) ("system")) [PyExpr.str ("x")]) := rfl
    unfold ScientificCalculator.evaluate SafeEval.eval_expr
    rw [hp]
    norm_num [SafeEval._eval]

/-- C1 counterexample: `evaluate("os.system('x')")` fails with an
`AttributeError` — an exception class outside the
`UnknownIdentifierError`/`UnknownFunctionError`/`SyntaxError` set named by
the claim (those correspond to the `Invalid variable` and
`Invalid function` `ValueError`s and to `EvalError.parseError`). -/
theorem whitelist_enforcement_counterexample :
    ScientificCalculator.evaluate false osSystemStr =
      Except.error (EvalError.runtime PyErr.attributeError) := by
  have hp : pyParse (pyReplaceCaret osSystemStr) =
      some (PyExpr.call (PyExpr.attr (PyExpr.name ("os")) ("system")) [PyExpr.str ("x")]) := rfl
  unfold ScientificCalculator.evaluate SafeEval.eval_expr
  rw [hp]
  norm_num [SafeEval._eval]

/-- C1 witness: the bare identifier `os` is outside the whitelist, and
evaluating it fails. -/
theorem whitelist_enforcement_witness :
    ∃ e, SafeEval._eval false (PyExpr.name ("os")) = Except.error e :=
  whitelist_enforcement.1 false (PyExpr.name ("os"))
    (UsesOutside.name ("os") rfl)


/-- C2 (amended): every *well-formed* expression over digits, `.`, `()`,
the five operators and unary minus whose standard value is defined (no zero
divisor, no fractional power of a negative base, no negative power of zero)
evaluates to its standard real-arithmetic value, and on the cited strings
`evaluate` returns `14`, `512` and `-4`: power is right-associative and, as
in Python, binds tighter than unary minus.  The claim's universal
quantification over *every* string built from this alphabet fails (e.g.
`"2+"` does not parse). -/
theorem arithmetic_evaluation :
    (∀ (t : Arith) (d : Bool), ADefined t →
      SafeEval._eval d (toPy t) = Except.ok (PyVal.num (aval t)))
    ∧ ScientificCalculator.evaluate false ("2+3*4") = Except.ok (PyVal.num 14)
    ∧ ScientificCalculator.evaluate false ("2^3^2") = Except.ok (PyVal.num 512)
    ∧ ScientificCalculator.evaluate false ("-2^2") = Except.ok (PyVal.num (-4)) := by
  refine ⟨fun t d h => adefined_eval d h, ?_, ?_, ?_⟩
  · have hp : pyParse (pyReplaceCaret ("2+3*4")) =
        some (PyExpr.binOp PyBinOp.add (PyExpr.num 2)
          (PyExpr.binOp PyBinOp.mult (PyExpr.num 3) (PyExpr.num 4))) := rfl
    unfold ScientificCalculator.evaluate SafeEval.eval_expr
    rw [hp]
    norm_num [SafeEval._eval, binFn, pyAdd, pyMul, exceptBind_ok]
  · have hp : pyParse (pyReplaceCaret ("2^3^2")) =
        some (PyExpr.binOp PyBinOp.pow (PyExpr.num 2)
          (PyExpr.binOp PyBinOp.pow (PyExpr.num 3) (PyExpr.num 2))) := rfl
    unfold ScientificCalculator.evaluate SafeEval.eval_expr
    rw [hp]
    norm_num [SafeEval._eval, binFn, pyPow, exceptBind_ok]
  · have hp : pyParse (pyReplaceCaret ("-2^2")) =
        some (PyExpr.unaryOp PyUnaryOp.usub
          (PyExpr.binOp PyBinOp.pow (PyExpr.num 2) (PyExpr.num 2))) := rfl
    unfold ScientificCalculator.evaluate SafeEval.eval_expr
    rw [hp]
    norm_num [SafeEval._eval, binFn, unFn, pyPow, pyNeg, exceptBind_ok]

/-- C2 counterexample: `"2+"` is built only from a digit and a whitelisted
operator, yet `parse` does not succeed — evaluation fails with a
`SyntaxError` instead of returning a value. -/
theorem arithmetic_evaluation_counterexample :
    ScientificCalculator.evaluate false ("2+") = Except.error EvalError.parseError := rfl

/-- C2 witness: `1/2` is a defined arithmetic expression and evaluates to
its standard value. -/
theorem arithmetic_evaluation_witness :
    SafeEval._eval false (toPy (Arith.div (Arith.num 1) (Arith.num 2))) =
      Except.ok (PyVal.num (aval (Arith.div (Arith.num 1) (Arith.num 2)))) :=
  arithmetic_evaluation.1 (Arith.div (Arith.num 1) (Arith.num 2)) false
    (ADefined.div (Arith.num 1) (Arith.num 2) (ADefined.num 1) (ADefined.num 2)
      (by norm_num [aval]))

/-- C3: when `use_degrees` is set, the single argument of a `sin`, `cos` or
`tan` call is converted by `math.radians` before the function is applied
(and is passed unchanged when the flag is off); expressions containing no
trig call evaluate independently of the flag; `evaluate("sin(90)")` is
exactly `1` in degree mode and `sin(90 radians)` with the mode off. -/
theorem degree_mode_rule :
    (∀ (d : Bool) (a : PyExpr) (x : ℝ), SafeEval._eval d a = Except.ok (PyVal.num x) →
      SafeEval._eval d (PyExpr.call (PyExpr.name ("sin")) [a]) =
        Except.ok (PyVal.num (Real.sin (if d = true then radians x else x))))
    ∧ (∀ (d : Bool) (a : PyExpr) (x : ℝ), SafeEval._eval d a = Except.ok (PyVal.num x) →
      SafeEval._eval d (PyExpr.call (PyExpr.name ("cos")) [a]) =
        Except.ok (PyVal.num (Real.cos (if d = true then radians x else x))))
    ∧ (∀ (d : Bool) (a : PyExpr) (x : ℝ), SafeEval._eval d a = Except.ok (PyVal.num x) →
      SafeEval._eval d (PyExpr.call (PyExpr.name ("tan")) [a]) =
        Except.ok (PyVal.num (Real.tan (if d = true then radians x else x))))
    ∧ (∀ t : PyExpr, TrigFree t → ∀ d₁ d₂ : Bool, SafeEval._eval d₁ t = SafeEval._eval d₂ t)
    ∧ ScientificCalculator.evaluate true ("sin(90)") = Except.ok (PyVal.num 1)
    ∧ ScientificCalculator.evaluate false ("sin(90)") =
        Except.ok (PyVal.num (Real.sin 90)) := by
  refine ⟨?_, ?_, ?_, fun t h d₁ d₂ => trigFree_eval_mode h d₁ d₂, ?_, ?_⟩
  · intro d a x h
    have ha : allowed_funcs ("sin") = some (DictVal.fn MathFn.sin) := rfl
    have htr : isTrigName ("sin") := by decide
    cases d with
    | true =>
      simp [SafeEval._eval, SafeEval.evalArgs, ha, htr, h, exceptBind_ok, applyEntry, callMath]
    | false =>
      simp [SafeEval._eval, SafeEval.evalArgs, ha, htr, h, exceptBind_ok, applyEntry, callMath]
  · intro d a x h
    have ha : allowed_funcs ("cos") = some (DictVal.fn MathFn.cos) := rfl
    have htr : isTrigName ("cos") := by decide
    cases d with
    | true =>
      simp [SafeEval._eval, SafeEval.evalArgs, ha, htr, h, exceptBind_ok, applyEntry, callMath]
    | false =>
      simp [SafeEval._eval, SafeEval.evalArgs, ha, htr, h, exceptBind_ok, applyEntry, callMath]
  · intro d a x h
    have ha : allowed_funcs ("tan") = some (DictVal.fn MathFn.tan) := rfl
    have htr : isTrigName ("tan") := by decide
    cases d with
    | true =>
      simp [SafeEval._eval, SafeEval.evalArgs, ha, htr, h, exceptBind_ok, applyEntry, callMath]
    | false =>
      simp [SafeEval._eval, SafeEval.evalArgs, ha, htr, h, exceptBind_ok, applyEntry, callMath]
  · have hp : pyParse (pyReplaceCaret ("sin(90)")) =
        some (PyExpr.call (PyExpr.name ("sin")) [PyExpr.num 90]) := rfl
    have ha : allowed_funcs ("sin") = some (DictVal.fn MathFn.sin) := rfl
    have htrig : isTrigName ("sin") := by decide
    have hrad : radians (90:ℝ) = Real.pi / 2 := by unfold radians; ring
    unfold ScientificCalculator.evaluate SafeEval.eval_expr
    rw [hp]
    norm_num [SafeEval._eval, SafeEval.evalArgs, ha, htrig, applyEntry, callMath,
      exceptBind_ok, hrad, Real.sin_pi_div_two]
  · have hp : pyParse (pyReplaceCaret ("sin(90)")) =
        some (PyExpr.call (PyExpr.name ("sin")) [PyExpr.num 90]) := rfl
    have ha : allowed_funcs ("sin") = some (DictVal.fn MathFn.sin) := rfl
    have htrig : isTrigName ("sin") := by decide
    unfold ScientificCalculator.evaluate SafeEval.eval_expr
    rw [hp]
    norm_num [SafeEval._eval, SafeEval.evalArgs, ha, htrig, applyEntry, callMath, exceptBind_ok]

/-- C3 witness: in degree mode, `sin(0)` applies `sin` to `radians 0`. -/
theorem degree_mode_rule_witness :
    SafeEval._eval true (PyExpr.call (PyExpr.name ("sin")) [PyExpr.num 0]) =
      Except.ok (PyVal.num (Real.sin (radians ((0:ℚ):ℝ)))) := by
  have h := degree_mode_rule.1 true (PyExpr.num 0) ((0:ℚ):ℝ) rfl
  simpa using h

/-- C4: division by zero fails with `ZeroDivisionError`, `sqrt` of a
negative number and `log` of a non-positive number fail with the
`math domain error` `ValueError`, with the failures propagated from the
arithmetic; in particular `evaluate("1/0")` and `evaluate("sqrt(-1)")`
fail with exactly these errors and return no number. -/
theorem undefined_operation_errors :
    (∀ (d : Bool) (l r : PyExpr) (x : ℝ), SafeEval._eval d l = Except.ok (PyVal.num x) →
      SafeEval._eval d r = Except.ok (PyVal.num 0) →
      SafeEval._eval d (PyExpr.binOp PyBinOp.div l r) = Except.error PyErr.zeroDivisionError)
    ∧ (∀ (d : Bool) (a : PyExpr) (x : ℝ), SafeEval._eval d a = Except.ok (PyVal.num x) →
      x < 0 → SafeEval._eval d (PyExpr.call (PyExpr.name ("sqrt")) [a]) =
        Except.error (PyErr.valueError ("math domain error")))
    ∧ (∀ (d : Bool) (a : PyExpr) (x : ℝ), SafeEval._eval d a = Except.ok (PyVal.num x) →
      x ≤ 0 → SafeEval._eval d (PyExpr.call (PyExpr.name ("log")) [a]) =
        Except.error (PyErr.valueError ("math domain error")))
    ∧ ScientificCalculator.evaluate false ("1/0") =
        Except.error (EvalError.runtime PyErr.zeroDivisionError)
    ∧ ScientificCalculator.evaluate false ("sqrt(-1)") =
        Except.error (EvalError.runtime (PyErr.valueError ("math domain error"))) := by
  refine ⟨?_, ?_, ?_, ?_, ?_⟩
  · intro d l r x hl hr
    simp [SafeEval._eval, binFn, hl, hr, exceptBind_ok, pyDiv]
  · intro d a x h hneg
    have ha : allowed_funcs ("sqrt") = some (DictVal.fn MathFn.sqrt) := rfl
    have htr : ¬ isTrigName ("sqrt") := by decide
    simp [SafeEval._eval, SafeEval.evalArgs, ha, htr, h, exceptBind_ok, applyEntry,
      callMath, hneg]
  · intro d a x h hnp
    have ha : allowed_funcs ("log") = some (DictVal.fn MathFn.log) := rfl
    have htr : ¬ isTrigName ("log") := by decide
    simp [SafeEval._eval, SafeEval.evalArgs, ha, htr, h, exceptBind_ok, applyEntry,
      callMath, hnp]
  · have hp : pyParse (pyReplaceCaret ("1/0")) =
        some (PyExpr.binOp PyBinOp.div (PyExpr.num 1) (PyExpr.num 0)) := rfl
    unfold ScientificCalculator.evaluate SafeEval.eval_expr
    rw [hp]
    simp [SafeEval._eval, binFn, pyDiv, exceptBind_ok]
  · have hp : pyParse (pyReplaceCaret ("sqrt(-1)")) =
        some (PyExpr.call (PyExpr.name ("sqrt"))
          [PyExpr.unaryOp PyUnaryOp.usub (PyExpr.num 1)]) := rfl
    have ha : allowed_funcs ("sqrt") = some (DictVal.fn MathFn.sqrt) := rfl
    have htr : ¬ isTrigName ("sqrt") := by decide
    unfold ScientificCalculator.evaluate SafeEval.eval_expr
    rw [hp]
    norm_num [SafeEval._eval, SafeEval.evalArgs, ha, htr, unFn, pyNeg, applyEntry,
      callMath, exceptBind_ok]

/-- C4 witness: `1/0` at the tree level raises `ZeroDivisionError`, and
`sqrt` of `-1` raises the domain error. -/
theorem undefined_operation_errors_witness :
    SafeEval._eval false (PyExpr.binOp PyBinOp.div (PyExpr.num 1) (PyExpr.num 0)) =
      Except.error PyErr.zeroDivisionError :=
  undefined_operation_errors.1 false (PyExpr.num 1) (PyExpr.num 0) ((1:ℚ):ℝ) rfl
    (by norm_num [SafeEval._eval])


/-- C5 (amended): input that is malformed at the level of Python's
expression grammar — `""`, `"2+"`, `"(2+3"`, `"2 3"` — fails in `ast.parse`
with a `SyntaxError` and no number is returned; but source text that is a
well-formed Python expression outside the supported forms parses
successfully and is instead rejected by the evaluator's catch-all
`ValueError("Invalid expression")`: comparisons such as `"1<2"`, string
literals and attribute access all reach that branch, so the parser does
not raise `SyntaxError` for them as the claim states. -/
theorem parser_rejection :
    ScientificCalculator.evaluate false ("") = Except.error EvalError.parseError
    ∧ ScientificCalculator.evaluate false ("2+") = Except.error EvalError.parseError
    ∧ ScientificCalculator.evaluate false ("(2+3") = Except.error EvalError.parseError
    ∧ ScientificCalculator.evaluate false ("2 3") = Except.error EvalError.parseError
    ∧ ScientificCalculator.evaluate false ("1<2") =
        Except.error (EvalError.runtime (PyErr.valueError ("Invalid expression")))
    ∧ (∀ (d : Bool) (l : PyExpr) (rs : List PyExpr),
        SafeEval._eval d (PyExpr.compare l rs) =
          Except.error (PyErr.valueError ("Invalid expression")))
    ∧ (∀ (d : Bool) (s : String),
        SafeEval._eval d (PyExpr.str s) =
          Except.error (PyErr.valueError ("Invalid expression")))
    ∧ (∀ (d : Bool) (v : PyExpr) (s : String),
        SafeEval._eval d (PyExpr.attr v s) =
          Except.error (PyErr.valueError ("Invalid expression"))) :=
  ⟨rfl, rfl, rfl, rfl, rfl, fun _ _ _ => rfl, fun _ _ => rfl, fun _ _ _ => rfl⟩

/-- C5 counterexample: `"1<2"` is not a well-formed expression of the
supported grammar, yet the parser accepts it — evaluation fails only later
with the evaluator's catch-all `ValueError("Invalid expression")`, not with
the `SyntaxError` the claim requires. -/
theorem parser_rejection_counterexample :
    pyParse ("1<2") = some (PyExpr.compare (PyExpr.num 1) [PyExpr.num 2])
    ∧ ScientificCalculator.evaluate false ("1<2") =
        Except.error (EvalError.runtime (PyErr.valueError ("Invalid expression"))) :=
  ⟨rfl, rfl⟩

/-- C6 (amended): the whitelisted functions other than `log` are unary, and
calling them with an argument count other than one fails — but with a
propagated `TypeError` from the `math` function (or an `IndexError` from
the degree-conversion subscript `args[0]` for a zero-argument trig call in
degree mode), not with a distinct `MalformedCallError`; and `log` is *not*
unary-only: `math.log` accepts an optional base, so `evaluate("log(8,2)")`
succeeds and returns `3`. -/
theorem call_arity :
    (∀ f : MathFn, ¬ f = MathFn.log → ∀ vs : List PyVal, vs.length ≠ 1 →
      callMath f vs = Except.error PyErr.typeError)
    ∧ ScientificCalculator.evaluate true ("sin()") =
        Except.error (EvalError.runtime PyErr.indexError)
    ∧ ScientificCalculator.evaluate false ("sin()") =
        Except.error (EvalError.runtime PyErr.typeError)
    ∧ ScientificCalculator.evaluate false ("sqrt(1,2)") =
        Except.error (EvalError.runtime PyErr.typeError)
    ∧ ScientificCalculator.evaluate false ("log(8,2)") = Except.ok (PyVal.num 3) := by
  refine ⟨?_, ?_, ?_, ?_, ?_⟩
  · intro f hf vs hlen
    cases f with
    | log => exact absurd rfl hf
    | sin =>
      match vs with
      | [] => rfl
      | [v] => exact absurd rfl hlen
      | v :: w :: rest => cases v <;> rfl
    | cos =>
      match vs with
      | [] => rfl
      | [v] => exact absurd rfl hlen
      | v :: w :: rest => cases v <;> rfl
    | tan =>
      match vs with
      | [] => rfl
      | [v] => exact absurd rfl hlen
      | v :: w :: rest => cases v <;> rfl
    | sqrt =>
      match vs with
      | [] => rfl
      | [v] => exact absurd rfl hlen
      | v :: w :: rest => cases v <;> rfl
    | exp =>
      match vs with
      | [] => rfl
      | [v] => exact absurd rfl hlen
      | v :: w :: rest => cases v <;> rfl
  · have hp : pyParse (pyReplaceCaret ("sin()")) =
        some (PyExpr.call (PyExpr.name ("sin")) []) := rfl
    have ha : allowed_funcs ("sin") = some (DictVal.fn MathFn.sin) := rfl
    have htr : isTrigName ("sin") := by decide
    unfold ScientificCalculator.evaluate SafeEval.eval_expr
    rw [hp]
    simp [SafeEval._eval, SafeEval.evalArgs, ha, htr, exceptBind_ok]
  · have hp : pyParse (pyReplaceCaret ("sin()")) =
        some (PyExpr.call (PyExpr.name ("sin")) []) := rfl
    have ha : allowed_funcs ("sin") = some (DictVal.fn MathFn.sin) := rfl
    unfold ScientificCalculator.evaluate SafeEval.eval_expr
    rw [hp]
    simp [SafeEval._eval, SafeEval.evalArgs, ha, applyEntry, callMath, exceptBind_ok]
  · have hp : pyParse (pyReplaceCaret ("sqrt(1,2)")) =
        some (PyExpr.call (PyExpr.name ("sqrt")) [PyExpr.num 1, PyExpr.num 2]) := rfl
    have ha : allowed_funcs ("sqrt") = some (DictVal.fn MathFn.sqrt) := rfl
    have htr : ¬ isTrigName ("sqrt") := by decide
    unfold ScientificCalculator.evaluate SafeEval.eval_expr
    rw [hp]
    simp [SafeEval._eval, SafeEval.evalArgs, ha, htr, applyEntry, callMath, exceptBind_ok]
  · have hp : pyParse (pyReplaceCaret ("log(8,2)")) =
        some (PyExpr.call (PyExpr.name ("log")) [PyExpr.num 8, PyExpr.num 2]) := rfl
    have ha : allowed_funcs ("log") = some (DictVal.fn MathFn.log) := rfl
    have htr : ¬ isTrigName ("log") := by decide
    have hl2 : Real.log 2 ≠ 0 := ne_of_gt (Real.log_pos (by norm_num))
    have hl8 : Real.log 8 = 3 * Real.log 2 := by
      rw [show (8:ℝ) = 2 ^ (3:ℕ) by norm_num, Real.log_pow]; push_cast; ring
    unfold ScientificCalculator.evaluate SafeEval.eval_expr
    rw [hp]
    norm_num [SafeEval._eval, SafeEval.evalArgs, ha, htr, applyEntry, callMath,
      exceptBind_ok, hl2, hl8]

/-- C6 counterexample: `evaluate("log(8,2)")` — a whitelisted call with two
arguments — does not fail at all: it returns the number `3` (`math.log`
takes an optional base), refuting the claim that every wrong-arity call
fails with `MalformedCallError`. -/
theorem call_arity_counterexample :
    ScientificCalculator.evaluate false ("log(8,2)") = Except.ok (PyVal.num 3) := by
  have hp : pyParse (pyReplaceCaret ("log(8,2)")) =
      some (PyExpr.call (PyExpr.name ("log")) [PyExpr.num 8, PyExpr.num 2]) := rfl
  have ha : allowed_funcs ("log") = some (DictVal.fn MathFn.log) := rfl
  have htr : ¬ isTrigName ("log") := by decide
  have hl2 : Real.log 2 ≠ 0 := ne_of_gt (Real.log_pos (by norm_num))
  have hl8 : Real.log 8 = 3 * Real.log 2 := by
    rw [show (8:ℝ) = 2 ^ (3:ℕ) by norm_num, Real.log_pow]; push_cast; ring
  unfold ScientificCalculator.evaluate SafeEval.eval_expr
  rw [hp]
  norm_num [SafeEval._eval, SafeEval.evalArgs, ha, htr, applyEntry, callMath,
    exceptBind_ok, hl2, hl8]

/-- C6 witness: `sin` applied to an empty argument list raises `TypeError`. -/
theorem call_arity_witness : callMath MathFn.sin [] = Except.error PyErr.typeError :=
  call_arity.1 MathFn.sin (by decide) [] (by decide)

/-- C7 (amended): a bare reference to a whitelisted *function* name does
not fail — `_eval` returns the function object itself (`allowed_funcs`
lookup), a non-numeric value, rather than raising `MalformedCallError`;
bare `pi` and `e` return their numeric values, and any name outside the
whitelist fails with the `Invalid variable` `ValueError`. -/
theorem bare_identifier :
    (∀ (d : Bool) (f : MathFn),
      SafeEval._eval d (PyExpr.name (mathFnName f)) = Except.ok (PyVal.func f))
    ∧ (∀ d : Bool, SafeEval._eval d (PyExpr.name ("pi")) = Except.ok (PyVal.num Real.pi))
    ∧ (∀ d : Bool, SafeEval._eval d (PyExpr.name ("e")) =
        Except.ok (PyVal.num (Real.exp 1)))
    ∧ (∀ (d : Bool) (id : String), allowed_funcs id = none →
        SafeEval._eval d (PyExpr.name id) =
          Except.error (PyErr.valueError ("Invalid variable"))) := by
  refine ⟨?_, fun d => rfl, fun d => rfl, ?_⟩
  · intro d f
    cases f <;> rfl
  · intro d id hid
    simp [SafeEval._eval, hid]

/-- C7 counterexample: `evaluate("sin")` succeeds, returning the function
object bound to `sin` — it does not fail with `MalformedCallError` (or any
error), refuting the claim. -/
theorem bare_identifier_counterexample :
    ScientificCalculator.evaluate false ("sin") = Except.ok (PyVal.func MathFn.sin) := rfl

/-- C7 witness: the name `x` is outside the whitelist and fails with the
`Invalid variable` `ValueError`. -/
theorem bare_identifier_witness :
    SafeEval._eval false (PyExpr.name ("x")) =
      Except.error (PyErr.valueError ("Invalid variable")) :=
  bare_identifier.2.2.2 false ("x") rfl

/-- C8 (amended): in the grammar actually parsed, the power operator binds
*tighter* than prefix unary minus: for any numeric literals `x`, `y` the
token sequence of `-x^y` parses as `-(x^y)`, and `evaluate("-2^2")` is
`-(2^2) = -4`, not `(-2)^2 = 4` as the claim states. -/
theorem power_binds_tighter_than_unary :
    (∀ x y : ℚ, runParse [Tok.minus, Tok.num x, Tok.dstar, Tok.num y] =
      some (PyExpr.unaryOp PyUnaryOp.usub
        (PyExpr.binOp PyBinOp.pow (PyExpr.num x) (PyExpr.num y))))
    ∧ ScientificCalculator.evaluate false ("-2^2") = Except.ok (PyVal.num (-4)) := by
  constructor
  · intro x y
    rfl
  · have hp : pyParse (pyReplaceCaret ("-2^2")) =
        some (PyExpr.unaryOp PyUnaryOp.usub
          (PyExpr.binOp PyBinOp.pow (PyExpr.num 2) (PyExpr.num 2))) := rfl
    unfold ScientificCalculator.evaluate SafeEval.eval_expr
    rw [hp]
    norm_num [SafeEval._eval, binFn, unFn, pyPow, pyNeg, exceptBind_ok]

/-- C8 counterexample: `evaluate("-2^2")` is not `4`: unary minus does not
bind tighter than the power operator (the result is `-4`). -/
theorem power_binds_counterexample :
    ScientificCalculator.evaluate false ("-2^2") ≠ Except.ok (PyVal.num 4) := by
  have hp : pyParse (pyReplaceCaret ("-2^2")) =
      some (PyExpr.unaryOp PyUnaryOp.usub
        (PyExpr.binOp PyBinOp.pow (PyExpr.num 2) (PyExpr.num 2))) := rfl
  unfold ScientificCalculator.evaluate SafeEval.eval_expr
  rw [hp]
  norm_num [SafeEval._eval, binFn, unFn, pyPow, pyNeg, exceptBind_ok]

/-- C9: the shell's `use_degrees` flag is read exactly once per `evaluate`
call — the copy-in `self.safe_eval.use_degrees = self.use_degrees` at the
start — and the evaluator's per-trig-node reads all see that constant
snapshot, so the result depends only on the flag's value at the start of
the call: mutating the shell flag while an evaluation is in flight cannot
produce a mixed-mode result. -/
theorem degree_flag_snapshot :
    ∀ (f g : ℕ → Bool) (s : String), f 0 = g 0 →
      ScientificCalculator.evaluateShell f s = ScientificCalculator.evaluate (f 0) s
      ∧ ScientificCalculator.evaluateShell f s = ScientificCalculator.evaluateShell g s := by
  intro f g s h
  have key : ∀ b : Bool, (match pyParse (pyReplaceCaret s) with
      | none => Except.error EvalError.parseError
      | some t =>
        match (SafeEval.evalTrace (fun _ => b) t 0).1 with
        | Except.error e => Except.error (EvalError.runtime e)
        | Except.ok v => Except.ok v) = ScientificCalculator.evaluate b s := by
    intro b
    unfold ScientificCalculator.evaluate SafeEval.eval_expr
    cases hp : pyParse (pyReplaceCaret s) with
    | none => rfl
    | some t => simp only [evalTrace_const_eq]
  have hshell : ∀ f' : ℕ → Bool,
      ScientificCalculator.evaluateShell f' s = (match pyParse (pyReplaceCaret s) with
        | none => Except.error EvalError.parseError
        | some t =>
          match (SafeEval.evalTrace (fun _ => f' 0) t 0).1 with
          | Except.error e => Except.error (EvalError.runtime e)
          | Except.ok v => Except.ok v) := fun f' => rfl
  constructor
  · rw [hshell f]; exact key (f 0)
  · rw [hshell f, hshell g, key (f 0), key (g 0), h]

/-- C9 witness: with the shell flag `true` at the start of the call,
evaluation of `sin(0)` agrees with plain degree-mode evaluation even if the
flag value at later instants differs. -/
theorem degree_flag_snapshot_witness :
    ScientificCalculator.evaluateShell (fun k => k == 0) ("sin(0)") =
      ScientificCalculator.evaluate ((fun (k : ℕ) => k == 0) 0) ("sin(0)")
    ∧ ScientificCalculator.evaluateShell (fun k => k == 0) ("sin(0)") =
      ScientificCalculator.evaluateShell (fun _ => true) ("sin(0)") :=
  degree_flag_snapshot (fun k => k == 0) (fun _ => true) ("sin(0)") rfl

/-- C10: the whitelisted name `log` is bound to the natural logarithm: a
one-argument `log` call on a positive value returns its natural log (in
any mode), and `evaluate("log(e)")` is exactly `1`. -/
theorem log_natural_base :
    (∀ (d : Bool) (a : PyExpr) (x : ℝ), SafeEval._eval d a = Except.ok (PyVal.num x) →
      0 < x → SafeEval._eval d (PyExpr.call (PyExpr.name ("log")) [a]) =
        Except.ok (PyVal.num (Real.log x)))
    ∧ (∀ d : Bool, ScientificCalculator.evaluate d ("log(e)") = Except.ok (PyVal.num 1)) := by
  constructor
  · intro d a x h hpos
    have ha : allowed_funcs ("log") = some (DictVal.fn MathFn.log) := rfl
    have htr : ¬ isTrigName ("log") := by decide
    simp [SafeEval._eval, SafeEval.evalArgs, ha, htr, h, exceptBind_ok, applyEntry,
      callMath, not_le.mpr hpos]
  · intro d
    have hp : pyParse (pyReplaceCaret ("log(e)")) =
        some (PyExpr.call (PyExpr.name ("log")) [PyExpr.name ("e")]) := rfl
    have ha : allowed_funcs ("log") = some (DictVal.fn MathFn.log) := rfl
    have hae : allowed_funcs ("e") = some (DictVal.numConst (Real.exp 1)) := rfl
    have htrig : ¬ isTrigName ("log") := by decide
    unfold ScientificCalculator.evaluate SafeEval.eval_expr
    rw [hp]
    norm_num [SafeEval._eval, SafeEval.evalArgs, ha, hae, htrig, applyEntry, callMath,
      exceptBind_ok, Real.log_exp, not_le.mpr (Real.exp_pos 1)]

/-- C10 witness: `log(2)` evaluates to the natural logarithm of `2`. -/
theorem log_natural_base_witness :
    SafeEval._eval false (PyExpr.call (PyExpr.name ("log")) [PyExpr.num 2]) =
      Except.ok (PyVal.num (Real.log ((2:ℚ):ℝ))) :=
  log_natural_base.1 false (PyExpr.num 2) ((2:ℚ):ℝ) rfl (by norm_num)

end Calsi
